import Mathlib

/-!
Verification of the road-telemetry core of project-road-70.

The Python sources under `server/` are shallowly embedded: pure fragments
become Lean functions on `ℚ` (Python floats are idealised as rationals,
which is exact for the threshold comparisons and affine arithmetic the
code performs), `Option` models Python `None`, and the SQLite tables that
the stateful functions read and write become explicit lists of row
structures threaded through the functions.  Dynamic dicts are embedded at
the field granularity the functions actually touch.
-/

set_option allowUnsafeReducibility true in
attribute [semireducible] Rat.add Rat.mul Rat.sub Rat.inv Rat.div Rat.neg

/-! ### Python-semantics helpers -/

/-- Python `int(q)` on a real-valued argument: truncation toward zero. -/
def pyInt (q : ℚ) : ℤ := if 0 ≤ q then q.floor else -((-q).floor)

/-- Python 3 `round(q)` to an integer: round half to even (banker's rounding). -/
def pyRound (q : ℚ) : ℤ :=
  let f := q.floor
  let r := q - f
  if r < mkRat 1 2 then f
  else if mkRat 1 2 < r then f + 1
  else if 2 ∣ f then f else f + 1

/-- Python `sorted` on a list of numbers. -/
def sortQ (l : List ℚ) : List ℚ := List.insertionSort (· ≤ ·) l

/-- Python `str.strip()`: drop leading and trailing whitespace. -/
def pyStrip (s : String) : String :=
  ⟨((s.data.dropWhile Char.isWhitespace).reverse.dropWhile Char.isWhitespace).reverse⟩

/-- Python `str.upper()` (ASCII letters, which is all the code relies on). -/
def pyUpper (s : String) : String := ⟨s.data.map Char.toUpper⟩

/-- Python `str.lower()` (ASCII letters, which is all the code relies on). -/
def pyLower (s : String) : String := ⟨s.data.map Char.toLower⟩

/-- Substring containment on character lists (Python `needle in hay`). -/
def containsSub (n : List Char) : List Char → Bool
  | [] => n.isEmpty
  | c :: rest => n.isPrefixOf (c :: rest) || containsSub n rest

/-- Python `needle in hay` on strings. -/
def pyInStr (needle hay : String) : Bool := containsSub needle.data hay.data

/-- Rat.floor agrees with the mathematical floor. -/
theorem ratFloor_eq_floor (q : ℚ) : q.floor = ⌊q⌋ := by
  rw [Rat.floor_def, Rat.floor_def']

/-- On non-negative arguments Python truncation is the floor. -/
theorem pyInt_eq_floor {q : ℚ} (h : 0 ≤ q) : pyInt q = ⌊q⌋ := by
  rw [pyInt, if_pos h, ratFloor_eq_floor]

/-! ### server/db.py -/

/-- `percentile(values, p)` from `server/db.py` lines 89-102: `None` on the
empty list, the sole element on a singleton, otherwise linear interpolation
at rank `k = (n-1)*p` between the `⌊k⌋`-th and `min(⌊k⌋+1, n-1)`-th entries
of the sorted list. -/
def percentile (values : List ℚ) (p : ℚ) : Option ℚ :=
  if values = [] then none
  else
    let v := sortQ values
    if v.length = 1 then some (v.getD 0 0)
    else
      let k : ℚ := ((v.length : ℚ) - 1) * p
      let f : ℤ := pyInt k
      let c : ℤ := min (f + 1) ((v.length : ℤ) - 1)
      if f = c then some (v.getD f.toNat 0)
      else some (v.getD f.toNat 0 * ((c : ℚ) - k) + v.getD c.toNat 0 * (k - (f : ℚ)))

/-- `compute_score(r50, r95)` from `server/db.py` lines 104-110. -/
def compute_score (r50 r95 : ℚ) : ℚ :=
  let a : ℚ := 45
  let b : ℚ := 30
  let penalty := a * r50 + b * max 0 (r95 - r50)
  let score := 100 - max 0 (min 100 penalty)
  score

/-- Modelled from the spec: `clamp(x, lo, hi)` as the spec writes it in the
score formula `100 − clamp(45·p50 + 30·max(0, p95−p50), 0, 100)`. -/
def clampSpec (x lo hi : ℚ) : ℚ := max lo (min hi x)

/-- Modelled from the spec: the linear-interpolated percentile of §4.4, for
sorted values `v[0..n-1]` and `p ∈ [0,1]`: `k = (n-1)*p`, `floor = ⌊k⌋`,
`ceil = min(floor+1, n-1)`, and the value interpolated linearly from
`v[floor]` at rank `floor` to `v[ceil]` at rank `ceil` (which is
`v[floor]*(ceil-k) + v[ceil]*(k-floor)` whenever `floor ≠ ceil`, and the
common entry itself at the degenerate rank `floor = ceil`, i.e. `p = 1`). -/
def spec_percentile (values : List ℚ) (p : ℚ) : ℚ :=
  let v := sortQ values
  let k : ℚ := ((v.length : ℚ) - 1) * p
  let f : ℤ := ⌊k⌋
  let c : ℤ := min (f + 1) ((v.length : ℤ) - 1)
  v.getD f.toNat 0 + (v.getD c.toNat 0 - v.getD f.toNat 0) * (k - (f : ℚ))

theorem percentile_eq_spec (values : List ℚ) (p : ℚ)
    (hne : values ≠ []) (hp0 : 0 ≤ p) (hp1 : p ≤ 1) :
    percentile values p = some (spec_percentile values p) := by
  have hnpos : 0 < (sortQ values).length := by
    have hlen : (sortQ values).length = values.length :=
      (List.perm_insertionSort (· ≤ ·) values).length_eq
    rw [hlen]; exact List.length_pos.mpr hne
  have hone : (1 : ℚ) ≤ ((sortQ values).length : ℚ) := by exact_mod_cast hnpos
  have hk0 : 0 ≤ (((sortQ values).length : ℚ) - 1) * p := by
    apply mul_nonneg _ hp0; linarith
  have hkle : (((sortQ values).length : ℚ) - 1) * p ≤ ((sortQ values).length : ℚ) - 1 := by
    have h1 : (0:ℚ) ≤ ((sortQ values).length : ℚ) - 1 := by linarith
    calc (((sortQ values).length : ℚ) - 1) * p ≤ (((sortQ values).length : ℚ) - 1) * 1 :=
          mul_le_mul_of_nonneg_left hp1 h1
      _ = ((sortQ values).length : ℚ) - 1 := mul_one _
  have hfle : ⌊(((sortQ values).length : ℚ) - 1) * p⌋ ≤ ((sortQ values).length : ℤ) - 1 := by
    have h2 := Int.floor_le_floor hkle
    have h3 : ⌊((sortQ values).length : ℚ) - 1⌋ = ((sortQ values).length : ℤ) - 1 := by
      rw [show (((sortQ values).length : ℚ) - 1)
            = ((((sortQ values).length : ℤ) - 1 : ℤ) : ℚ) by push_cast; ring]
      exact Int.floor_intCast _
    rw [h3] at h2; exact h2
  unfold percentile spec_percentile
  rw [if_neg hne]
  simp only [pyInt_eq_floor hk0]
  by_cases h1 : (sortQ values).length = 1
  · rw [if_pos h1]
    have hk : (((sortQ values).length : ℚ) - 1) * p = 0 := by
      rw [h1]; push_cast; ring
    rw [hk]
    norm_num
  · rw [if_neg h1]
    by_cases hfc : ⌊(((sortQ values).length : ℚ) - 1) * p⌋ =
        min (⌊(((sortQ values).length : ℚ) - 1) * p⌋ + 1) (((sortQ values).length : ℤ) - 1)
    · rw [if_pos hfc]
      rw [← hfc]
      congr 1
      ring
    · rw [if_neg hfc]
      have hlt : ⌊(((sortQ values).length : ℚ) - 1) * p⌋ < ((sortQ values).length : ℤ) - 1 := by
        rcases lt_or_eq_of_le hfle with h | h
        · exact h
        · exfalso; apply hfc; rw [h]; omega
      have hc : min (⌊(((sortQ values).length : ℚ) - 1) * p⌋ + 1) (((sortQ values).length : ℤ) - 1)
          = ⌊(((sortQ values).length : ℚ) - 1) * p⌋ + 1 := min_eq_left (by omega)
      rw [hc]
      congr 1
      have hfl0 : 0 ≤ ⌊(((sortQ values).length : ℚ) - 1) * p⌋ := Int.floor_nonneg.mpr hk0
      have htn : (⌊(((sortQ values).length : ℚ) - 1) * p⌋ + 1).toNat
          = ⌊(((sortQ values).length : ℚ) - 1) * p⌋.toNat + 1 := by omega
      rw [htn]
      push_cast
      ring

/-- C7: `percentile` implements the linear-interpolation definition for every
non-empty list and `p ∈ [0,1]`; `percentile([1,2,3,4,5], 0.5) = 3`,
`percentile([1,2,3,4], 0.5) = 2.5`, and `percentile([], p)` is `none`. -/
theorem C7_percentile_linear_interpolation :
    (∀ (values : List ℚ) (p : ℚ), values ≠ [] → 0 ≤ p → p ≤ 1 →
      percentile values p = some (spec_percentile values p)) ∧
    percentile [1, 2, 3, 4, 5] (mkRat 1 2) = some 3 ∧
    percentile [1, 2, 3, 4] (mkRat 1 2) = some (mkRat 5 2) ∧
    (∀ p : ℚ, percentile [] p = none) := by
  refine ⟨percentile_eq_spec, by decide, by decide, fun p => rfl⟩

/-- C7 witness: the general interpolation clause applied to the concrete list
`[0.3, 0.1]` at `p = 1/2`. -/
theorem C7_percentile_linear_interpolation_witness :
    percentile [mkRat 3 10, mkRat 1 10] (mkRat 1 2)
      = some (spec_percentile [mkRat 3 10, mkRat 1 10] (mkRat 1 2)) :=
  C7_percentile_linear_interpolation.1 _ _ (by decide) (by decide) (by decide)

/-- C2 counterexample: `compute_score(1.0, 1.0)` is `55.0`, not the `0.0` the
claim states (the penalty at `r50 = r95 = 1` is `45`, nowhere near the floor). -/
theorem C2_counterexample_score_at_one_one :
    compute_score 1 1 = 55 ∧ compute_score 1 1 ≠ 0 := ⟨by decide, by decide⟩

/-- C2 (amended): `compute_score(0,0) = 100`; `compute_score(1,1) = 55`; for
all non-negative `r50`, `r95` the score is `100 − clamp(45·r50 +
30·max(0, r95−r50), 0, 100)`; and the score is never negative (the clamp
floors it at zero). -/
theorem C2_compute_score_clamped_formula :
    compute_score 0 0 = 100 ∧ compute_score 1 1 = 55 ∧
    (∀ r50 r95 : ℚ, 0 ≤ r50 → 0 ≤ r95 →
      compute_score r50 r95 = 100 - clampSpec (45 * r50 + 30 * max 0 (r95 - r50)) 0 100) ∧
    (∀ r50 r95 : ℚ, 0 ≤ compute_score r50 r95) := by
  refine ⟨by decide, by decide, fun r50 r95 _ _ => rfl, fun r50 r95 => ?_⟩
  show 0 ≤ 100 - max 0 (min 100 (45 * r50 + 30 * max 0 (r95 - r50)))
  have hle : max 0 (min 100 (45 * r50 + 30 * max 0 (r95 - r50))) ≤ 100 :=
    max_le (by norm_num) (min_le_left _ _)
  linarith

/-- C2 witness: the clamp formula applied at the concrete input
`r50 = 0.3`, `r95 = 0.6`. -/
theorem C2_compute_score_clamped_formula_witness :
    compute_score (mkRat 3 10) (mkRat 6 10)
      = 100 - clampSpec (45 * mkRat 3 10 + 30 * max 0 (mkRat 6 10 - mkRat 3 10)) 0 100 :=
  C2_compute_score_clamped_formula.2.2.1 _ _ (by decide) (by decide)

/-! ### server/analysis.py

`analyze_aggregate` (lines 73-147) reads `road_roughness`, `shock_events` and
`confidence` through the `_f` coercion (`None`/non-numeric becomes `None`),
and `quality_note` through `(... or "").lower()`.  The record is embedded at
that granularity: the three numeric signals as `Option ℚ` (the result of
`_f`) and the note as `Option String`.  The `analysis_payload` audit dict
attached to each event is not modelled; `event_type`, `severity`, `score`
and `reason` are. -/

structure AggregateData where
  road_roughness : Option ℚ
  shock_events : Option ℚ
  confidence : Option ℚ
  quality_note : Option String
deriving DecidableEq

structure RoadEvent where
  event_type : String
  severity : String
  score : Option ℚ
  reason : String
deriving DecidableEq

/-- The `roughness is not None` rule block of `analyze_aggregate`
(lines 82-102). -/
def roughness_rule (roughness : Option ℚ) : List RoadEvent :=
  match roughness with
  | none => []
  | some r =>
    if r ≥ mkRat 55 100 then [⟨"rough_surface", "major", some r, "roughness >= 0.55"⟩]
    else if r ≥ mkRat 35 100 then [⟨"rough_surface", "moderate", some r, "roughness >= 0.35"⟩]
    else []

/-- The `shocks is not None` rule block of `analyze_aggregate`
(lines 104-124). -/
def shock_rule (shocks : Option ℚ) : List RoadEvent :=
  match shocks with
  | none => []
  | some s =>
    if s ≥ 6 then [⟨"shock_cluster", "major", some s, "shock_events >= 6"⟩]
    else if s ≥ 3 then [⟨"shock_cluster", "moderate", some s, "shock_events >= 3"⟩]
    else []

/-- The `confidence` rule block of `analyze_aggregate` (lines 126-135). -/
def confidence_rule (confidence : Option ℚ) : List RoadEvent :=
  match confidence with
  | none => []
  | some c =>
    if c < mkRat 3 10 then [⟨"low_confidence", "minor", some c, "confidence < 0.30"⟩]
    else []

/-- The `quality_note` rule block of `analyze_aggregate` (lines 137-145). -/
def quality_note_rule (quality_note : String) : List RoadEvent :=
  if pyInStr "sanity:" quality_note || pyInStr "lat_out_of_range" quality_note
      || pyInStr "lon_out_of_range" quality_note then
    [⟨"telemetry_issue", "minor", none, "quality_note indicates telemetry anomaly"⟩]
  else []

/-- `analyze_aggregate(data)` from `server/analysis.py` lines 73-147: the four
independent rule blocks applied in source order, appending to `events`. -/
def analyze_aggregate (d : AggregateData) : List RoadEvent :=
  roughness_rule d.road_roughness
    ++ shock_rule d.shock_events
    ++ confidence_rule d.confidence
    ++ quality_note_rule (pyLower (d.quality_note.getD ""))

theorem roughness_rule_types : ∀ (r : Option ℚ),
    List.Sublist ((roughness_rule r).map RoadEvent.event_type) ["rough_surface"] := by
  intro r
  match r with
  | none => simp [roughness_rule]
  | some x =>
    rw [roughness_rule]
    split_ifs <;> simp

theorem shock_rule_types : ∀ (s : Option ℚ),
    List.Sublist ((shock_rule s).map RoadEvent.event_type) ["shock_cluster"] := by
  intro s
  match s with
  | none => simp [shock_rule]
  | some x =>
    rw [shock_rule]
    split_ifs <;> simp

theorem confidence_rule_types : ∀ (c : Option ℚ),
    List.Sublist ((confidence_rule c).map RoadEvent.event_type) ["low_confidence"] := by
  intro c
  match c with
  | none => simp [confidence_rule]
  | some x =>
    rw [confidence_rule]
    split_ifs <;> simp

theorem quality_note_rule_types : ∀ (q : String),
    List.Sublist ((quality_note_rule q).map RoadEvent.event_type) ["telemetry_issue"] := by
  intro q
  rw [quality_note_rule]
  split_ifs <;> simp

theorem mem_roughness_rule_iff (r : Option ℚ) (e : RoadEvent) :
    e ∈ roughness_rule r ↔
      ∃ x, r = some x ∧
        ((mkRat 55 100 ≤ x ∧ e = ⟨"rough_surface", "major", some x, "roughness >= 0.55"⟩) ∨
         (mkRat 35 100 ≤ x ∧ x < mkRat 55 100 ∧
           e = ⟨"rough_surface", "moderate", some x, "roughness >= 0.35"⟩)) := by
  match r with
  | none => simp [roughness_rule]
  | some x =>
    rw [roughness_rule]
    split_ifs with h1 h2
    · simp only [ge_iff_le] at h1
      simp [h1]
    · simp only [ge_iff_le, not_le] at h1 h2
      simp [h2, h1]
    · simp only [ge_iff_le, not_le] at h1 h2
      simp
      exact ⟨fun hc => absurd hc (not_le.mpr h1), fun hc _ => absurd hc (not_le.mpr h2)⟩

theorem mem_shock_rule_type (s : Option ℚ) : ∀ e ∈ shock_rule s, e.event_type = "shock_cluster" := by
  intro e he
  match s with
  | none => simp [shock_rule] at he
  | some x =>
    rw [shock_rule] at he
    split_ifs at he <;> simp_all

theorem mem_confidence_rule_type (c : Option ℚ) :
    ∀ e ∈ confidence_rule c, e.event_type = "low_confidence" := by
  intro e he
  match c with
  | none => simp [confidence_rule] at he
  | some x =>
    rw [confidence_rule] at he
    split_ifs at he <;> simp_all

theorem mem_quality_note_rule_type (q : String) :
    ∀ e ∈ quality_note_rule q, e.event_type = "telemetry_issue" := by
  intro e he
  rw [quality_note_rule] at he
  split_ifs at he <;> simp_all

theorem mem_analyze_aggregate (d : AggregateData) (e : RoadEvent) :
    e ∈ analyze_aggregate d ↔
      e ∈ roughness_rule d.road_roughness ∨ e ∈ shock_rule d.shock_events ∨
      e ∈ confidence_rule d.confidence ∨
      e ∈ quality_note_rule (pyLower (d.quality_note.getD "")) := by
  simp [analyze_aggregate, List.mem_append, or_assoc]

/-- C6: a `rough_surface` event with severity `major` is emitted exactly when
`road_roughness ≥ 0.55`, with `moderate` exactly when `0.35 ≤ roughness <
0.55`, and none at all when the signal is below `0.35` or missing; an emitted
roughness event's score equals the roughness value.  Concretely, `0.6` gives
`major` with score `0.6`, `0.4` gives `moderate`, `0.2` gives nothing. -/
theorem C6_rough_surface_rule :
    (∀ d : AggregateData,
      ((∃ e ∈ analyze_aggregate d, e.event_type = "rough_surface" ∧ e.severity = "major") ↔
        (∃ r, d.road_roughness = some r ∧ mkRat 55 100 ≤ r)) ∧
      ((∃ e ∈ analyze_aggregate d, e.event_type = "rough_surface" ∧ e.severity = "moderate") ↔
        (∃ r, d.road_roughness = some r ∧ mkRat 35 100 ≤ r ∧ r < mkRat 55 100)) ∧
      ((∀ e ∈ analyze_aggregate d, e.event_type ≠ "rough_surface") ↔
        (d.road_roughness = none ∨ ∃ r, d.road_roughness = some r ∧ r < mkRat 35 100)) ∧
      (∀ e ∈ analyze_aggregate d, e.event_type = "rough_surface" → e.score = d.road_roughness)) ∧
    analyze_aggregate ⟨some (mkRat 6 10), none, none, none⟩ =
      [⟨"rough_surface", "major", some (mkRat 6 10), "roughness >= 0.55"⟩] ∧
    analyze_aggregate ⟨some (mkRat 4 10), none, none, none⟩ =
      [⟨"rough_surface", "moderate", some (mkRat 4 10), "roughness >= 0.35"⟩] ∧
    analyze_aggregate ⟨some (mkRat 2 10), none, none, none⟩ = [] := by
  refine ⟨fun d => ⟨?_, ?_, ?_, ?_⟩, by decide, by decide, by decide⟩
  · constructor
    · rintro ⟨e, he, ht, hs⟩
      rcases (mem_analyze_aggregate d e).mp he with h | h | h | h
      · rcases (mem_roughness_rule_iff _ _).mp h with ⟨x, hr, ⟨hx, rfl⟩ | ⟨_, _, rfl⟩⟩
        · exact ⟨x, hr, hx⟩
        · simp at hs
      · have h2 := mem_shock_rule_type _ e h; rw [ht] at h2; exact absurd h2 (by decide)
      · have h2 := mem_confidence_rule_type _ e h; rw [ht] at h2; exact absurd h2 (by decide)
      · have h2 := mem_quality_note_rule_type _ e h; rw [ht] at h2; exact absurd h2 (by decide)
    · rintro ⟨x, hr, hx⟩
      exact ⟨⟨"rough_surface", "major", some x, "roughness >= 0.55"⟩,
        (mem_analyze_aggregate d _).mpr (Or.inl ((mem_roughness_rule_iff _ _).mpr
          ⟨x, hr, Or.inl ⟨hx, rfl⟩⟩)), rfl, rfl⟩
  · constructor
    · rintro ⟨e, he, ht, hs⟩
      rcases (mem_analyze_aggregate d e).mp he with h | h | h | h
      · rcases (mem_roughness_rule_iff _ _).mp h with ⟨x, hr, ⟨_, rfl⟩ | ⟨hx1, hx2, rfl⟩⟩
        · simp at hs
        · exact ⟨x, hr, hx1, hx2⟩
      · have h2 := mem_shock_rule_type _ e h; rw [ht] at h2; exact absurd h2 (by decide)
      · have h2 := mem_confidence_rule_type _ e h; rw [ht] at h2; exact absurd h2 (by decide)
      · have h2 := mem_quality_note_rule_type _ e h; rw [ht] at h2; exact absurd h2 (by decide)
    · rintro ⟨x, hr, hx1, hx2⟩
      exact ⟨⟨"rough_surface", "moderate", some x, "roughness >= 0.35"⟩,
        (mem_analyze_aggregate d _).mpr (Or.inl ((mem_roughness_rule_iff _ _).mpr
          ⟨x, hr, Or.inr ⟨hx1, hx2, rfl⟩⟩)), rfl, rfl⟩
  · constructor
    · intro hall
      cases hr : d.road_roughness with
      | none => exact Or.inl rfl
      | some x =>
        refine Or.inr ⟨x, rfl, ?_⟩
        by_contra hge
        push_neg at hge
        by_cases h55 : mkRat 55 100 ≤ x
        · exact hall _ ((mem_analyze_aggregate d _).mpr (Or.inl
            ((mem_roughness_rule_iff _ _).mpr ⟨x, hr, Or.inl ⟨h55, rfl⟩⟩))) rfl
        · exact hall _ ((mem_analyze_aggregate d _).mpr (Or.inl
            ((mem_roughness_rule_iff _ _).mpr ⟨x, hr, Or.inr ⟨hge, not_le.mp h55, rfl⟩⟩))) rfl
    · intro h e he ht
      rcases (mem_analyze_aggregate d e).mp he with h1 | h1 | h1 | h1
      · rcases (mem_roughness_rule_iff _ _).mp h1 with ⟨x, hr, hcase⟩
        rcases h with hn | ⟨y, hy, hlt⟩
        · rw [hn] at hr; exact Option.noConfusion hr
        · rw [hy] at hr
          injection hr with hr
          subst hr
          have hc : mkRat 35 100 ≤ mkRat 55 100 := by decide
          rcases hcase with ⟨hx, _⟩ | ⟨hx1, _, _⟩
          · exact absurd hlt (not_lt.mpr (le_trans hc hx))
          · exact absurd hlt (not_lt.mpr hx1)
      · have h2 := mem_shock_rule_type _ e h1; rw [ht] at h2; exact absurd h2 (by decide)
      · have h2 := mem_confidence_rule_type _ e h1; rw [ht] at h2; exact absurd h2 (by decide)
      · have h2 := mem_quality_note_rule_type _ e h1; rw [ht] at h2; exact absurd h2 (by decide)
  · intro e he ht
    rcases (mem_analyze_aggregate d e).mp he with h | h | h | h
    · rcases (mem_roughness_rule_iff _ _).mp h with ⟨x, hr, ⟨_, rfl⟩ | ⟨_, _, rfl⟩⟩ <;>
        simpa using hr.symm
    · have h2 := mem_shock_rule_type _ e h; rw [ht] at h2; exact absurd h2 (by decide)
    · have h2 := mem_confidence_rule_type _ e h; rw [ht] at h2; exact absurd h2 (by decide)
    · have h2 := mem_quality_note_rule_type _ e h; rw [ht] at h2; exact absurd h2 (by decide)

/-- C6 witness: the major-threshold clause applied at the concrete record with
`road_roughness = 0.6`. -/
theorem C6_rough_surface_rule_witness :
    ∃ e ∈ analyze_aggregate ⟨some (mkRat 6 10), none, none, none⟩,
      e.event_type = "rough_surface" ∧ e.severity = "major" :=
  ((C6_rough_surface_rule.1 ⟨some (mkRat 6 10), none, none, none⟩).1).mpr
    ⟨mkRat 6 10, rfl, by decide⟩

theorem mem_roughness_rule_severity (r : Option ℚ) :
    ∀ e ∈ roughness_rule r, e.severity ∈ (["minor", "moderate", "major"] : List String) := by
  intro e he
  match r with
  | none => simp [roughness_rule] at he
  | some x =>
    rw [roughness_rule] at he
    split_ifs at he <;> simp_all

theorem mem_shock_rule_severity (s : Option ℚ) :
    ∀ e ∈ shock_rule s, e.severity ∈ (["minor", "moderate", "major"] : List String) := by
  intro e he
  match s with
  | none => simp [shock_rule] at he
  | some x =>
    rw [shock_rule] at he
    split_ifs at he <;> simp_all

theorem mem_confidence_rule_severity (c : Option ℚ) :
    ∀ e ∈ confidence_rule c, e.severity ∈ (["minor", "moderate", "major"] : List String) := by
  intro e he
  match c with
  | none => simp [confidence_rule] at he
  | some x =>
    rw [confidence_rule] at he
    split_ifs at he <;> simp_all

theorem mem_quality_note_rule_severity (q : String) :
    ∀ e ∈ quality_note_rule q, e.severity ∈ (["minor", "moderate", "major"] : List String) := by
  intro e he
  rw [quality_note_rule] at he
  split_ifs at he <;> simp_all

/-- C10: for every input record the analyzer emits at most one event of each
of the four event types, in the fixed source order `rough_surface`,
`shock_cluster`, `low_confidence`, `telemetry_issue` (its type trace is a
sublist of that list, hence at most four events with no repeated type), and
every emitted severity is `minor`, `moderate` or `major`. -/
theorem C10_analyzer_event_shape :
    ∀ d : AggregateData,
      List.Sublist ((analyze_aggregate d).map RoadEvent.event_type)
        ["rough_surface", "shock_cluster", "low_confidence", "telemetry_issue"] ∧
      (analyze_aggregate d).length ≤ 4 ∧
      ((analyze_aggregate d).map RoadEvent.event_type).Nodup ∧
      (∀ e ∈ analyze_aggregate d, e.severity ∈ (["minor", "moderate", "major"] : List String)) := by
  intro d
  have hsub : List.Sublist ((analyze_aggregate d).map RoadEvent.event_type)
      ["rough_surface", "shock_cluster", "low_confidence", "telemetry_issue"] := by
    rw [analyze_aggregate]
    simp only [List.map_append]
    exact ((((roughness_rule_types d.road_roughness).append
      (shock_rule_types d.shock_events)).append
        (confidence_rule_types d.confidence)).append
          (quality_note_rule_types (pyLower (d.quality_note.getD ""))))
  refine ⟨hsub, ?_, List.Nodup.sublist hsub (by decide), ?_⟩
  · have h := hsub.length_le
    simpa using h
  · intro e he
    rcases (mem_analyze_aggregate d e).mp he with h | h | h | h
    · exact mem_roughness_rule_severity _ e h
    · exact mem_shock_rule_severity _ e h
    · exact mem_confidence_rule_severity _ e h
    · exact mem_quality_note_rule_severity _ e h

/-- C10 witness: the severity clause applied at a record that fires all four
rules at once. -/
theorem C10_analyzer_event_shape_witness :
    (⟨"rough_surface", "major", some (mkRat 6 10), "roughness >= 0.55"⟩ : RoadEvent).severity
      ∈ (["minor", "moderate", "major"] : List String) :=
  (C10_analyzer_event_shape
      ⟨some (mkRat 6 10), some 7, some (mkRat 1 10), some "sanity:lat_out_of_range"⟩).2.2.2
    ⟨"rough_surface", "major", some (mkRat 6 10), "roughness >= 0.55"⟩ (by decide)

/-! ### Infix machinery for the quality-note tagging proofs -/

theorem containsSub_iff_isInfix (n l : List Char) : containsSub n l = true ↔ n <:+: l := by
  induction l with
  | nil =>
    rw [containsSub]
    simp [List.isEmpty_iff]
  | cons c rest ih =>
    rw [containsSub, Bool.or_eq_true, ih, List.infix_cons_iff, List.isPrefixOf_iff_prefix]

/-- Python `" ".join(notes)`. -/
def joinSpace : List String → String
  | [] => ""
  | [x] => x
  | x :: y :: ys => x ++ " " ++ joinSpace (y :: ys)

theorem mem_joinSpace_isInfix {t : String} : ∀ {l : List String},
    t ∈ l → t.data <:+: (joinSpace l).data := by
  intro l
  induction l with
  | nil => intro h; cases h
  | cons x xs ih =>
    intro h
    rcases List.mem_cons.mp h with rfl | hx
    · cases xs with
      | nil => exact List.infix_refl _
      | cons y ys =>
        rw [joinSpace, String.data_append, String.data_append]
        rw [List.append_assoc]
        exact (List.prefix_append _ _).isInfix
    · cases xs with
      | nil => cases hx
      | cons y ys =>
        rw [joinSpace, String.data_append]
        exact (ih hx).trans (List.suffix_append _ _).isInfix

theorem infix_dropWhile_not_ws (n : List Char) (hne : n ≠ [])
    (hnws : ∀ c ∈ n, ¬c.isWhitespace) :
    ∀ l : List Char, n <:+: l → n <:+: l.dropWhile Char.isWhitespace := by
  intro l
  induction l with
  | nil => intro h; simpa using h
  | cons c rest ih =>
    intro h
    rw [List.dropWhile_cons]
    by_cases hc : c.isWhitespace
    · rw [if_pos hc]
      apply ih
      rcases List.infix_cons_iff.mp h with hp | hi
      · exfalso
        obtain ⟨t, ht⟩ := hp
        cases n with
        | nil => exact hne rfl
        | cons a n2 =>
          injection ht with h1 _
          exact hnws a (List.mem_cons_self a n2) (h1 ▸ hc)
      · exact hi
    · rw [if_neg hc]
      exact h

theorem infix_pyStrip (n : List Char) (s : String) (hne : n ≠ [])
    (hnws : ∀ c ∈ n, ¬c.isWhitespace) (h : n <:+: s.data) :
    n <:+: (pyStrip s).data := by
  have h1 : n <:+: s.data.dropWhile Char.isWhitespace :=
    infix_dropWhile_not_ws n hne hnws _ h
  have h2 : n.reverse <:+: (s.data.dropWhile Char.isWhitespace).reverse :=
    List.reverse_infix.mpr h1
  have h3 : n.reverse <:+:
      ((s.data.dropWhile Char.isWhitespace).reverse).dropWhile Char.isWhitespace :=
    infix_dropWhile_not_ws n.reverse (by simpa using hne)
      (fun c hc => hnws c (List.mem_reverse.mp hc)) _ h2
  have h4 := List.reverse_infix.mpr h3
  simpa using h4

/-! ### server/main.py: sanitize_lat_lon -/

/-- The fields of the ingest dict that `sanitize_lat_lon` reads or writes,
each numeric one taken after the `_f` coercion (`None`/unparsable is
`none`). -/
structure GeoFields where
  lat : Option ℚ
  lon : Option ℚ
  speed_mps : Option ℚ
  quality_note : Option String
deriving DecidableEq

/-- The `lat` nulling of `sanitize_lat_lon` (`server/main.py` lines 208-210). -/
def sanitizedLat (lat0 : Option ℚ) : Option ℚ :=
  match lat0 with
  | some x => if |x| > 90 then none else some x
  | none => none

/-- The `lat` note of `sanitize_lat_lon` (line 209). -/
def latNotes (lat0 : Option ℚ) : List String :=
  match lat0 with
  | some x => if |x| > 90 then ["sanity:lat_out_of_range"] else []
  | none => []

/-- The `lon` nulling of `sanitize_lat_lon` (lines 211-213). -/
def sanitizedLon (lon0 : Option ℚ) : Option ℚ :=
  match lon0 with
  | some x => if |x| > 180 then none else some x
  | none => none

/-- The `lon` note of `sanitize_lat_lon` (line 212). -/
def lonNotes (lon0 : Option ℚ) : List String :=
  match lon0 with
  | some x => if |x| > 180 then ["sanity:lon_out_of_range"] else []
  | none => []

/-- The lon-looks-like-speed advisory note (lines 216-217), evaluated on the
already-nulled `lon`. -/
def speedNotes (lon : Option ℚ) (speed : Option ℚ) : List String :=
  match lon, speed with
  | some x, some sp =>
    if |x| ≤ 60 ∧ |sp| ≤ 60 then ["sanity:lon_looks_like_speed"] else []
  | _, _ => []

/-- The `notes` list accumulated by `sanitize_lat_lon`, in source order. -/
def sanitizeNotes (d : GeoFields) : List String :=
  latNotes d.lat ++ lonNotes d.lon ++ speedNotes (sanitizedLon d.lon) d.speed_mps

/-- `sanitize_lat_lon(d)` from `server/main.py` lines 202-224: null each
out-of-range coordinate, collect the sanity notes, and append them to the
(stripped) `quality_note` joined by spaces behind a `" | "` separator when a
prior note exists; `speed_mps` is read but never written. -/
def sanitize_lat_lon (d : GeoFields) : GeoFields :=
  let notes := sanitizeNotes d
  let quality_note :=
    if notes = [] then d.quality_note
    else
      let qn := pyStrip (d.quality_note.getD "")
      some (pyStrip (qn ++ (if qn = "" then "" else " | ") ++ joinSpace notes))
  { lat := sanitizedLat d.lat, lon := sanitizedLon d.lon, speed_mps := d.speed_mps,
    quality_note := quality_note }

theorem sanitize_quality_tag (d : GeoFields) (tag : String) (hne : tag.data ≠ [])
    (hws : ∀ c ∈ tag.data, ¬c.isWhitespace) (hmem : tag ∈ sanitizeNotes d) :
    pyInStr tag ((sanitize_lat_lon d).quality_note.getD "") = true := by
  have hnotes : sanitizeNotes d ≠ [] := List.ne_nil_of_mem hmem
  have hq : (sanitize_lat_lon d).quality_note =
      some (pyStrip (pyStrip (d.quality_note.getD "")
        ++ (if pyStrip (d.quality_note.getD "") = "" then "" else " | ")
        ++ joinSpace (sanitizeNotes d))) := by
    rw [sanitize_lat_lon]
    simp only [if_neg hnotes]
  rw [hq]
  rw [pyInStr, Option.getD_some]
  apply (containsSub_iff_isInfix _ _).mpr
  apply infix_pyStrip _ _ hne hws
  rw [String.data_append]
  exact (mem_joinSpace_isInfix hmem).trans (List.suffix_append _ _).isInfix

/-! ### server/main.py: named_insert_metric key flow -/

/-- The alias table of `named_insert_metric` (`server/main.py` lines 267-295). -/
def aliasMap (k : String) : String :=
  if k = "heading" then "heading_deg"
  else if k = "speed" then "speed_mps"
  else if k = "lat_deg" then "lat"
  else if k = "lon_deg" then "lon"
  else if k = "latitude" then "lat"
  else if k = "longitude" then "lon"
  else if k = "lng" then "lon"
  else if k = "long" then "lon"
  else if k = "gps_lat" then "lat"
  else if k = "gps_lon" then "lon"
  else if k = "gps_lng" then "lon"
  else if k = "speed_ms" then "speed_mps"
  else if k = "speed_m_s" then "speed_mps"
  else if k = "speedMps" then "speed_mps"
  else if k = "headingDeg" then "heading_deg"
  else if k = "conf" then "confidence"
  else if k = "confidence_score" then "confidence"
  else if k = "confidenceScore" then "confidence"
  else if k = "deviceId" then "node_id"
  else if k = "device_id" then "node_id"
  else k

/-- The columns of `metric_aggregates` as `ensure_tables` creates it
(`server/main.py` lines 227-258). -/
def stdMetricCols : List String :=
  ["id", "received_at", "node_id", "bucket_start", "bucket_seconds", "grid_key",
   "direction", "speed_band", "road_roughness", "shock_events", "confidence",
   "sample_count", "lat", "lon", "speed_mps", "heading_deg", "mount_state",
   "device_posture", "moving", "analyzable", "points_eligible", "road_name",
   "short_location", "quality_note"]

/-- The payload keys that map to columns: alias-translate every key and keep
those that are table columns (`named_insert_metric` lines 297-301). -/
def mappedKeys (payload cols : List String) : List String :=
  (payload.map aliasMap).filter (fun k => cols.contains k)

/-- The keys that the defaulting block of `named_insert_metric` guarantees are
present in `d` before the column intersection: lines 304-310 force
`sample_count`, `bucket_seconds` and `node_id`, lines 312-319 `setdefault`
the envelope fields, and `sanitize_lat_lon` (line 321) unconditionally
writes `lat` and `lon` back into `d`. -/
def defaultedKeys : List String :=
  ["sample_count", "bucket_seconds", "node_id", "received_at", "bucket_start",
   "grid_key", "direction", "speed_band", "quality_note", "lat", "lon"]

/-- The key set of the final `INSERT` of `named_insert_metric` (line 323):
every key of `d` after alias mapping and defaulting that is a real column. -/
def namedInsertKeys (payload cols : List String) : List String :=
  ((mappedKeys payload cols ++ defaultedKeys).dedup).filter (fun k => cols.contains k)

/-- `named_insert_metric` raises `HTTPException("No writable fields")` iff the
final key set is empty (lines 324-325). -/
def namedInsertRaises (payload cols : List String) : Bool :=
  namedInsertKeys payload cols = []

/-! ### server/ingest_named.py: insert_metric_aggregate key flow -/

/-- The alias table of `insert_metric_aggregate`
(`server/ingest_named.py` lines 32-37). -/
def aggAliasMap (k : String) : String :=
  if k = "speed" then "speed_mps"
  else if k = "heading" then "heading_deg"
  else if k = "lat_deg" then "lat"
  else if k = "lon_deg" then "lon"
  else k

/-- The keys of `required_defaults` (`server/ingest_named.py` lines 46-55);
each is added to `d` whenever it is a column and absent or empty. -/
def aggRequiredDefaultKeys : List String :=
  ["received_at", "node_id", "bucket_start", "bucket_seconds", "grid_key",
   "direction", "speed_band", "sample_count"]

/-- The key set of the final `INSERT` of `insert_metric_aggregate` (line 71):
mapped payload keys plus the required defaults that are columns
(`_sanitize_latlon` only rewrites keys already present). -/
def aggInsertKeys (payload cols : List String) : List String :=
  (((payload.map aggAliasMap).filter (fun k => cols.contains k)
    ++ aggRequiredDefaultKeys.filter (fun k => cols.contains k)).dedup)

/-- `insert_metric_aggregate` raises `ValueError("No writable fields")` iff
the final key set is empty (lines 72-73). -/
def aggInsertRaises (payload cols : List String) : Bool :=
  aggInsertKeys payload cols = []

theorem namedInsert_never_raises_std (payload : List String) :
    namedInsertRaises payload stdMetricCols = false := by
  have hmem : "received_at" ∈ namedInsertKeys payload stdMetricCols := by
    rw [namedInsertKeys]
    apply List.mem_filter.mpr
    refine ⟨List.mem_dedup.mpr (List.mem_append_right _ (by decide)), by decide⟩
  rw [namedInsertRaises]
  simpa using List.ne_nil_of_mem hmem

theorem aggInsert_never_raises_std (payload : List String) :
    aggInsertRaises payload stdMetricCols = false := by
  have hmem : "received_at" ∈ aggInsertKeys payload stdMetricCols := by
    rw [aggInsertKeys]
    exact List.mem_dedup.mpr (List.mem_append_right _ (by decide))
  rw [aggInsertRaises]
  simpa using List.ne_nil_of_mem hmem

/-- C4 counterexample: the structurally empty payload maps zero fields, yet
`named_insert_metric` over the standard schema does not raise — the
defaulting block always contributes writable keys, so the empty payload is
inserted as an all-defaults row rather than rejected. -/
theorem C4_counterexample_empty_payload_inserted :
    mappedKeys [] stdMetricCols = [] ∧
    namedInsertRaises [] stdMetricCols = false ∧
    namedInsertKeys [] stdMetricCols ≠ [] := by
  refine ⟨by decide, by decide, by decide⟩

/-- C4 (amended): the `No writable fields` error is raised iff the key set
left after alias mapping AND defaulting has no table column; since the
defaulting block always adds canonical keys, the error is unreachable over
the standard `metric_aggregates` schema — in both `named_insert_metric` and
`insert_metric_aggregate` a structurally empty payload is inserted as an
all-defaults row, not rejected.  Raising would still imply that zero payload
fields mapped. -/
theorem C4_no_writable_fields_unreachable :
    (∀ payload : List String, namedInsertRaises payload stdMetricCols = false) ∧
    (∀ payload : List String, aggInsertRaises payload stdMetricCols = false) ∧
    (∀ payload cols : List String, namedInsertRaises payload cols = true →
      mappedKeys payload cols = []) := by
  refine ⟨namedInsert_never_raises_std, aggInsert_never_raises_std, ?_⟩
  intro payload cols h
  rw [namedInsertRaises, decide_eq_true_eq] at h
  by_contra hne
  obtain ⟨k, hk⟩ := List.exists_mem_of_ne_nil _ hne
  have hkcols : cols.contains k = true := (List.mem_filter.mp hk).2
  have : k ∈ namedInsertKeys payload cols := by
    rw [namedInsertKeys]
    exact List.mem_filter.mpr
      ⟨List.mem_dedup.mpr (List.mem_append_left _ hk), hkcols⟩
  rw [h] at this
  cases this

/-- C4 witness: the never-raises clause at the concrete payload
`["road_roughness"]`, and the raise-implies-nothing-mapped clause at the
concrete payload `["lat"]` over an empty column set (where the raise
condition is satisfiable). -/
theorem C4_no_writable_fields_unreachable_witness :
    namedInsertRaises ["road_roughness"] stdMetricCols = false ∧
    mappedKeys ["lat"] [] = [] :=
  ⟨C4_no_writable_fields_unreachable.1 ["road_roughness"],
   C4_no_writable_fields_unreachable.2.2 ["lat"] [] (by decide)⟩

/-- C1 counterexample: for the ingest dict with `lat = 999` (out of range)
and `lon = 10` (in range), `sanitize_lat_lon` nulls only `lat` — the claim
that BOTH coordinates are stored as null is false: `lon` survives as `10`. -/
theorem C1_counterexample_lon_survives :
    (sanitize_lat_lon ⟨some 999, some 10, none, none⟩).lat = none ∧
    (sanitize_lat_lon ⟨some 999, some 10, none, none⟩).lon = some 10 ∧
    (sanitize_lat_lon ⟨some 999, some 10, none, none⟩).lon ≠ none := by
  refine ⟨by decide, by decide, by decide⟩

/-- C1 (amended): an out-of-range coordinate is nulled individually — the
other coordinate, when in range, is stored unchanged — and the matching
`sanity:lat_out_of_range` / `sanity:lon_out_of_range` tag is appended to
`quality_note`; the record is still inserted (the ingest insert never
raises over the standard schema), never silently dropped. -/
theorem C1_out_of_range_nulls_offending_coordinate :
    (∀ (d : GeoFields) (x : ℚ), d.lat = some x → |x| > 90 →
      (sanitize_lat_lon d).lat = none ∧
      pyInStr "sanity:lat_out_of_range" ((sanitize_lat_lon d).quality_note.getD "") = true) ∧
    (∀ (d : GeoFields) (x : ℚ), d.lon = some x → |x| > 180 →
      (sanitize_lat_lon d).lon = none ∧
      pyInStr "sanity:lon_out_of_range" ((sanitize_lat_lon d).quality_note.getD "") = true) ∧
    (∀ (d : GeoFields) (x : ℚ), d.lat = some x → ¬(|x| > 90) →
      (sanitize_lat_lon d).lat = some x) ∧
    (∀ (d : GeoFields) (x : ℚ), d.lon = some x → ¬(|x| > 180) →
      (sanitize_lat_lon d).lon = some x) ∧
    (∀ payload : List String, namedInsertRaises payload stdMetricCols = false) := by
  refine ⟨?_, ?_, ?_, ?_, namedInsert_never_raises_std⟩
  · intro d x hx hout
    constructor
    · show sanitizedLat d.lat = none
      rw [hx, sanitizedLat, if_pos hout]
    · apply sanitize_quality_tag d _ (by decide) (by decide)
      rw [sanitizeNotes]
      apply List.mem_append_left
      apply List.mem_append_left
      rw [hx, latNotes, if_pos hout]
      exact List.mem_singleton.mpr rfl
  · intro d x hx hout
    constructor
    · show sanitizedLon d.lon = none
      rw [hx, sanitizedLon, if_pos hout]
    · apply sanitize_quality_tag d _ (by decide) (by decide)
      rw [sanitizeNotes]
      apply List.mem_append_left
      apply List.mem_append_right
      rw [hx, lonNotes, if_pos hout]
      exact List.mem_singleton.mpr rfl
  · intro d x hx hin
    show sanitizedLat d.lat = some x
    rw [hx, sanitizedLat, if_neg hin]
  · intro d x hx hin
    show sanitizedLon d.lon = some x
    rw [hx, sanitizedLon, if_neg hin]

/-- C1 witness: the lat clause applied at the concrete dict with `lat = 999`,
`lon = 10`. -/
theorem C1_out_of_range_nulls_offending_coordinate_witness :
    (sanitize_lat_lon ⟨some 999, some 10, none, none⟩).lat = none ∧
    pyInStr "sanity:lat_out_of_range"
      ((sanitize_lat_lon ⟨some 999, some 10, none, none⟩).quality_note.getD "") = true :=
  C1_out_of_range_nulls_offending_coordinate.1 ⟨some 999, some 10, none, none⟩
    999 rfl (by decide)

/-! ### server/roadscore.py: segment identity

`make_segment_id` hashes the normalised identity triple with SHA-1
(`hashlib.sha1(base).hexdigest()[:16]`), so SHA-1 itself is embedded: UTF-8
encoding of the base string, padding, the 80-round compression, and the hex
digest, all on `ℕ` with explicit `% 2^32`. -/

/-- UTF-8 encoding of one character as byte values. -/
def utf8Bytes (c : Char) : List ℕ :=
  let n := c.toNat
  if n < 0x80 then [n]
  else if n < 0x800 then [0xC0 + n / 0x40, 0x80 + n % 0x40]
  else if n < 0x10000 then
    [0xE0 + n / 0x1000, 0x80 + (n / 0x40) % 0x40, 0x80 + n % 0x40]
  else
    [0xF0 + n / 0x40000, 0x80 + (n / 0x1000) % 0x40, 0x80 + (n / 0x40) % 0x40, 0x80 + n % 0x40]

/-- The UTF-8 bytes of a string (`base.encode("utf-8")`). -/
def strBytes (s : String) : List ℕ := (s.data.map utf8Bytes).flatten

/-- 32-bit left rotation of a value below `2^32`. -/
def rotl (s x : ℕ) : ℕ := (x * 2 ^ s + x / 2 ^ (32 - s)) % 2 ^ 32

/-- SHA-1 padding: `0x80`, zeros to 56 mod 64, 8-byte big-endian bit length. -/
def sha1pad (msg : List ℕ) : List ℕ :=
  let len := msg.length
  let padLen := (64 - ((len + 9) % 64)) % 64
  msg ++ [0x80] ++ List.replicate padLen 0 ++
    [8 * len / 2 ^ 56 % 256, 8 * len / 2 ^ 48 % 256, 8 * len / 2 ^ 40 % 256,
     8 * len / 2 ^ 32 % 256, 8 * len / 2 ^ 24 % 256, 8 * len / 2 ^ 16 % 256,
     8 * len / 2 ^ 8 % 256, 8 * len % 256]

/-- Big-endian 32-bit words from a byte list. -/
def bytesToWords : List ℕ → List ℕ
  | a :: b :: c :: d :: rest => (a * 2 ^ 24 + b * 2 ^ 16 + c * 2 ^ 8 + d) :: bytesToWords rest
  | _ => []

/-- Split a word list into 16-word blocks (fuel-driven). -/
def chunk16 : ℕ → List ℕ → List (List ℕ)
  | 0, _ => []
  | _ + 1, [] => []
  | fuel + 1, ws => ws.take 16 :: chunk16 fuel (ws.drop 16)

/-- The 80-word SHA-1 message schedule of one block. -/
def sha1W (block : List ℕ) : List ℕ :=
  (List.range 64).foldl
    (fun w _ =>
      w ++ [rotl 1 (Nat.xor (Nat.xor (w.getD (w.length - 3) 0) (w.getD (w.length - 8) 0))
        (Nat.xor (w.getD (w.length - 14) 0) (w.getD (w.length - 16) 0)))])
    block

/-- The SHA-1 round function. -/
def sha1f (i b c d : ℕ) : ℕ :=
  if i < 20 then Nat.lor (Nat.land b c) (Nat.land (Nat.xor b 0xFFFFFFFF) d)
  else if i < 40 then Nat.xor (Nat.xor b c) d
  else if i < 60 then Nat.lor (Nat.lor (Nat.land b c) (Nat.land b d)) (Nat.land c d)
  else Nat.xor (Nat.xor b c) d

/-- The SHA-1 round constants. -/
def sha1K (i : ℕ) : ℕ :=
  if i < 20 then 0x5A827999 else if i < 40 then 0x6ED9EBA1
  else if i < 60 then 0x8F1BBCDC else 0xCA62C1D6

/-- The five 32-bit SHA-1 state words. -/
structure Sha1State where
  h0 : ℕ
  h1 : ℕ
  h2 : ℕ
  h3 : ℕ
  h4 : ℕ

/-- One SHA-1 block compression. -/
def sha1Compress (st : Sha1State) (block : List ℕ) : Sha1State :=
  let w := sha1W block
  let result := (List.range 80).foldl
    (fun (abcde : ℕ × ℕ × ℕ × ℕ × ℕ) i =>
      match abcde with
      | (a, b, c, d, e) =>
        ((rotl 5 a + sha1f i b c d + e + sha1K i + w.getD i 0) % 2 ^ 32,
          a, rotl 30 b, c, d))
    (st.h0, st.h1, st.h2, st.h3, st.h4)
  match result with
  | (a, b, c, d, e) =>
    ⟨(st.h0 + a) % 2 ^ 32, (st.h1 + b) % 2 ^ 32, (st.h2 + c) % 2 ^ 32,
     (st.h3 + d) % 2 ^ 32, (st.h4 + e) % 2 ^ 32⟩

/-- The SHA-1 initialisation vector. -/
def sha1Init : Sha1State := ⟨0x67452301, 0xEFCDAB89, 0x98BADCFE, 0x10325476, 0xC3D2E1F0⟩

/-- The SHA-1 digest state of a byte message. -/
def sha1Digest (msg : List ℕ) : Sha1State :=
  let words := bytesToWords (sha1pad msg)
  (chunk16 words.length words).foldl sha1Compress sha1Init

/-- One lowercase hex digit. -/
def hexDigitChar (n : ℕ) : Char := "0123456789abcdef".data.getD n '0'

/-- The eight hex characters of a 32-bit word, big-endian. -/
def hexWordChars (n : ℕ) : List Char :=
  (List.range 8).map (fun i => hexDigitChar (n / 2 ^ (4 * (7 - i)) % 16))

/-- `hashlib.sha1(msg).hexdigest()`: forty lowercase hex characters. -/
def sha1hexdigest (msg : List ℕ) : String :=
  ⟨hexWordChars (sha1Digest msg).h0 ++ hexWordChars (sha1Digest msg).h1
    ++ hexWordChars (sha1Digest msg).h2 ++ hexWordChars (sha1Digest msg).h3
    ++ hexWordChars (sha1Digest msg).h4⟩


/-- `make_segment_id(hwy_ref, road_name, state)` from `server/roadscore.py`
lines 65-73: join the stripped upper-cased parts with `"|"`, fall back to
`"UNKNOWN"` when all are empty, and keep the first 16 hex characters of the
SHA-1 digest. -/
def make_segment_id (hwy_ref road_name state : Option String) : String :=
  let base := pyUpper (pyStrip (hwy_ref.getD "")) ++ "|"
    ++ pyUpper (pyStrip (road_name.getD "")) ++ "|" ++ pyUpper (pyStrip (state.getD ""))
  let base2 := if base = "||" then "UNKNOWN" else base
  ⟨(sha1hexdigest (strBytes base2)).data.take 16⟩


theorem sha1hexdigest_data_length (m : List ℕ) : (sha1hexdigest m).data.length = 40 := by
  simp [sha1hexdigest, hexWordChars]

theorem hexDigitChar_mem (n : ℕ) : hexDigitChar n ∈ "0123456789abcdef".data := by
  rcases lt_or_ge n 16 with h | h
  · interval_cases n <;> decide
  · rw [hexDigitChar]
    rw [List.getD_eq_default]
    · decide
    · simpa using h

theorem mem_hexWordChars {c : Char} {n : ℕ} (h : c ∈ hexWordChars n) :
    c ∈ "0123456789abcdef".data := by
  rw [hexWordChars] at h
  obtain ⟨i, _, rfl⟩ := List.mem_map.mp h
  exact hexDigitChar_mem _

theorem mem_sha1hexdigest_hex {c : Char} {m : List ℕ}
    (h : c ∈ (sha1hexdigest m).data) : c ∈ "0123456789abcdef".data := by
  rcases List.mem_append.mp h with h4 | h4
  · rcases List.mem_append.mp h4 with h3 | h3
    · rcases List.mem_append.mp h3 with h2 | h2
      · rcases List.mem_append.mp h2 with h1 | h1
        · exact mem_hexWordChars h1
        · exact mem_hexWordChars h1
      · exact mem_hexWordChars h2
    · exact mem_hexWordChars h3
  · exact mem_hexWordChars h4

theorem make_segment_id_sixteen_hex (h r s : Option String) :
    (make_segment_id h r s).length = 16 ∧
    ∀ c ∈ (make_segment_id h r s).data, c ∈ "0123456789abcdef".data := by
  constructor
  · show ((sha1hexdigest _).data.take 16).length = 16
    rw [List.length_take, sha1hexdigest_data_length]
    decide
  · intro c hc
    exact mem_sha1hexdigest_hex (List.take_subset _ _ hc)


set_option maxRecDepth 10000 in
/-- C8: segment identity is a deterministic pure function — triples equal
after stripping and upper-casing give the same id, the id is 16 lowercase
hex characters, and the all-null triple resolves to the fixed sentinel
derived from hashing `"UNKNOWN"`, concretely `25ba44ec3b391ba4`. -/
theorem C8_segment_id_deterministic :
    (∀ h1 r1 s1 h2 r2 s2 : Option String,
      pyUpper (pyStrip (h1.getD "")) = pyUpper (pyStrip (h2.getD "")) →
      pyUpper (pyStrip (r1.getD "")) = pyUpper (pyStrip (r2.getD "")) →
      pyUpper (pyStrip (s1.getD "")) = pyUpper (pyStrip (s2.getD "")) →
      make_segment_id h1 r1 s1 = make_segment_id h2 r2 s2) ∧
    (∀ h r s : Option String, (make_segment_id h r s).length = 16 ∧
      ∀ c ∈ (make_segment_id h r s).data, c ∈ "0123456789abcdef".data) ∧
    make_segment_id none none none
      = ⟨(sha1hexdigest (strBytes "UNKNOWN")).data.take 16⟩ ∧
    make_segment_id none none none = "25ba44ec3b391ba4" := by
  refine ⟨?_, make_segment_id_sixteen_hex, by decide, by decide⟩
  intro h1 r1 s1 h2 r2 s2 hh hr hs
  rw [make_segment_id, make_segment_id, hh, hr, hs]

/-- C8 witness: the determinism clause applied at the concrete triples
`("i-70 ", "", "co")` and `("I-70", None, " CO")`. -/
theorem C8_segment_id_deterministic_witness :
    make_segment_id (some "i-70 ") (some "") (some "co")
      = make_segment_id (some "I-70") none (some " CO") :=
  C8_segment_id_deterministic.1 _ _ _ _ _ _ (by decide) (by decide) (by decide)

/-! ### server/roadscore.py: upsert_segment -/

/-- One row of the `road_segments` table (`server/roadscore.py` lines 35-48). -/
structure SegRow where
  segment_id : String
  hwy_ref : Option String
  road_name : Option String
  state : Option String
  county : Option String
  city : Option String
  centroid_lat : Option ℚ
  centroid_lon : Option ℚ
  created_at : ℤ
  updated_at : ℤ
deriving DecidableEq

/-- The fields of the dict handed to `upsert_segment`; `lat`/`lon` hold the
`float(...)` value when the payload entry is numeric (the `isinstance`
check of lines 100-101), else `none`. -/
structure SegIn where
  hwy_ref : Option String
  road_name : Option String
  state : Option String
  county : Option String
  city : Option String
  lat : Option ℚ
  lon : Option ℚ
deriving DecidableEq

/-- `upsert_segment(con, d)` from `server/roadscore.py` lines 75-106: insert a
fresh row keyed by `make_segment_id`, or on conflict update the display
attributes unconditionally and each centroid coordinate by
`COALESCE(excluded, existing)` (incoming value wins whenever non-null);
`created_at` is untouched on update.  The table is the explicit row list. -/
def upsert_segment (table : List SegRow) (d : SegIn) (now : ℤ) : List SegRow × String :=
  let seg := make_segment_id d.hwy_ref d.road_name d.state
  match table.find? (fun r => r.segment_id == seg) with
  | none =>
    (table ++ [⟨seg, d.hwy_ref, d.road_name, d.state, d.county, d.city,
      d.lat, d.lon, now, now⟩], seg)
  | some _ =>
    (table.map (fun r =>
      if r.segment_id == seg then
        { r with
          hwy_ref := d.hwy_ref
          road_name := d.road_name
          state := d.state
          county := d.county
          city := d.city
          centroid_lat := (match d.lat with | some x => some x | none => r.centroid_lat)
          centroid_lon := (match d.lon with | some x => some x | none => r.centroid_lon)
          updated_at := now }
      else r), seg)

set_option maxRecDepth 10000 in
/-- C3 counterexample: a segment stored with centroid `(1, 2)` and then
upserted again under the same identity with incoming `lat = 3`, `lon = 4`
ends with centroid `(3, 4)` — the stored non-null centroid is overwritten by
the later fix, not kept. -/
theorem C3_counterexample_centroid_overwritten :
    (upsert_segment
        (upsert_segment []
          ⟨some "I-70", some "Main St", some "CO", none, none, some 1, some 2⟩ 0).1
        ⟨some "I-70", some "Main St", some "CO", none, none, some 3, some 4⟩ 1).1.map
      SegRow.centroid_lat = [some 3] ∧
    (upsert_segment []
        ⟨some "I-70", some "Main St", some "CO", none, none, some 1, some 2⟩ 0).1.map
      SegRow.centroid_lat = [some 1] ∧
    (some (3 : ℚ)) ≠ (some (1 : ℚ)) := by
  refine ⟨by decide, by decide, by decide⟩

/-- C3 (amended): on an identity conflict, `upsert_segment` updates the
display attributes unconditionally, and each centroid coordinate is taken
from the incoming dict whenever the incoming value is non-null (the later
fix wins); the existing centroid survives only when the incoming value is
null.  `created_at` is preserved. -/
theorem C3_upsert_segment_centroid_semantics :
    ∀ (table : List SegRow) (d : SegIn) (now : ℤ) (r : SegRow),
      r ∈ table → r.segment_id = make_segment_id d.hwy_ref d.road_name d.state →
      ∃ q ∈ (upsert_segment table d now).1,
        q.hwy_ref = d.hwy_ref ∧ q.road_name = d.road_name ∧ q.state = d.state ∧
        q.county = d.county ∧ q.city = d.city ∧ q.created_at = r.created_at ∧
        (d.lat = none → q.centroid_lat = r.centroid_lat) ∧
        (∀ x, d.lat = some x → q.centroid_lat = some x) ∧
        (d.lon = none → q.centroid_lon = r.centroid_lon) ∧
        (∀ x, d.lon = some x → q.centroid_lon = some x) := by
  intro table d now r hmem hid
  have hfind : ∃ r0, table.find? (fun q => q.segment_id
      == make_segment_id d.hwy_ref d.road_name d.state) = some r0 := by
    apply Option.isSome_iff_exists.mp
    rw [List.find?_isSome]
    exact ⟨r, hmem, by rw [hid]; exact beq_self_eq_true _⟩
  obtain ⟨r0, hr0⟩ := hfind
  rw [upsert_segment]
  rw [hr0]
  refine ⟨_, List.mem_map_of_mem _ hmem, ?_⟩
  rw [if_pos (by rw [hid]; exact beq_self_eq_true _)]
  refine ⟨rfl, rfl, rfl, rfl, rfl, rfl, ?_, ?_, ?_, ?_⟩
  · intro h; rw [h]
  · intro x h; rw [h]
  · intro h; rw [h]
  · intro x h; rw [h]

/-- C3 witness: the conflict-update clause applied to a concrete stored row
with centroid `(1, 2)` and an incoming dict with `lat = 3`, `lon = None`. -/
theorem C3_upsert_segment_centroid_semantics_witness :
    ∃ q ∈ (upsert_segment
        [⟨make_segment_id (some "I-70") (some "Main St") (some "CO"),
          some "I-70", some "Main St", some "CO", none, none, some 1, some 2, 0, 0⟩]
        ⟨some "I-70", some "Main St", some "CO", none, none, some 3, none⟩ 5).1,
      q.hwy_ref = some "I-70" ∧ q.road_name = some "Main St" ∧ q.state = some "CO" ∧
      q.county = (none : Option String) ∧ q.city = (none : Option String) ∧
      q.created_at = (0 : ℤ) ∧
      ((some (3 : ℚ)) = none → q.centroid_lat = some 1) ∧
      (∀ x : ℚ, (some (3 : ℚ)) = some x → q.centroid_lat = some x) ∧
      ((none : Option ℚ) = none → q.centroid_lon = some 2) ∧
      (∀ x : ℚ, (none : Option ℚ) = some x → q.centroid_lon = some x) := by
  have h := C3_upsert_segment_centroid_semantics
    [⟨make_segment_id (some "I-70") (some "Main St") (some "CO"),
      some "I-70", some "Main St", some "CO", none, none, some 1, some 2, 0, 0⟩]
    ⟨some "I-70", some "Main St", some "CO", none, none, some 3, none⟩ 5
    ⟨make_segment_id (some "I-70") (some "Main St") (some "CO"),
      some "I-70", some "Main St", some "CO", none, none, some 1, some 2, 0, 0⟩
    (List.mem_singleton.mpr rfl) rfl
  simpa using h

/-! ### server/roadscore.py: recompute_scores -/

/-- `p95_shocks(seg)` from `server/roadscore.py` lines 134-147: the SQL query
returns the segment's non-null shock counts ordered ascending (modelled by
sorting the value list); the 95th percentile is the value at the rounded rank
`int(round(0.95*(n-1)))`, clamped into range — nearest-rank, no
interpolation. -/
def p95_shocks (xs : List ℚ) : Option ℚ :=
  if xs = [] then none
  else
    let vals := sortQ xs
    let k : ℤ := pyRound (mkRat 95 100 * ((vals.length : ℚ) - 1))
    some (vals.getD (max 0 (min k ((vals.length : ℤ) - 1))).toNat 0)

/-- The per-segment score of `recompute_scores` (lines 152-165): roughness
mean times 100, plus the shock p95 capped at 20 and weighted 2.5, then a
low-confidence multiplier; the `Option` arguments model the SQL aggregates
and `p95_shocks` result with their Python `None` fallbacks (0, 1, 0). -/
def segment_row_score (rough_mean conf_mean shock95 : Option ℚ) : ℚ :=
  let rm := rough_mean.getD 0
  let s95 := shock95.getD 0
  let cm := conf_mean.getD 1
  let score := rm * 100 + min s95 20 * mkRat 5 2
  score * (1 + max 0 (mkRat 9 10 - cm) * mkRat 1 4)

theorem p95_shocks_nearest_rank (xs : List ℚ) (hne : xs ≠ []) :
    ∃ v, p95_shocks xs = some v ∧ v ∈ xs ∧
      v = (sortQ xs).getD
        (max 0 (min (pyRound (mkRat 95 100 * (((sortQ xs).length : ℚ) - 1)))
          (((sortQ xs).length : ℤ) - 1))).toNat 0 := by
  have hlen : (sortQ xs).length = xs.length :=
    (List.perm_insertionSort (· ≤ ·) xs).length_eq
  have hn : 0 < (sortQ xs).length := by
    rw [hlen]; exact List.length_pos.mpr hne
  refine ⟨(sortQ xs).getD
    (max 0 (min (pyRound (mkRat 95 100 * (((sortQ xs).length : ℚ) - 1)))
      (((sortQ xs).length : ℤ) - 1))).toNat 0, ?_, ?_, rfl⟩
  · rw [p95_shocks, if_neg hne]
  · have hlt : (max 0 (min (pyRound (mkRat 95 100 * (((sortQ xs).length : ℚ) - 1)))
        (((sortQ xs).length : ℤ) - 1))).toNat < (sortQ xs).length := by
      have h1 : min (pyRound (mkRat 95 100 * (((sortQ xs).length : ℚ) - 1)))
          (((sortQ xs).length : ℤ) - 1) ≤ ((sortQ xs).length : ℤ) - 1 := min_le_right _ _
      omega
    rw [List.getD_eq_getElem _ _ hlt]
    exact (List.perm_insertionSort (· ≤ ·) xs).mem_iff.mp (List.getElem_mem _)

/-- C5 counterexample: on the shock list `[0, 1]` the rollup engine's
percentile gives `0.95` (linear interpolation) while `p95_shocks` gives `1`
(nearest rank) — the two definitions differ. -/
theorem C5_counterexample_p95_not_interpolated :
    p95_shocks [0, 1] = some 1 ∧
    percentile [0, 1] (mkRat 95 100) = some (mkRat 19 20) ∧
    p95_shocks [0, 1] ≠ percentile [0, 1] (mkRat 95 100) := by
  refine ⟨by decide, by decide, by decide⟩

/-- C5 (amended): for every qualifying segment the 95th-percentile shock
count is the nearest-rank statistic `sorted[int(round(0.95*(n-1)))]` — an
actual element of the shock list, not the rollup engine's interpolated
percentile — and it enters the segment score capped at 20 and weighted 2.5:
any p95 at or above 20 contributes exactly like 20. -/
theorem C5_shock_p95_nearest_rank_capped :
    (∀ xs : List ℚ, xs ≠ [] →
      ∃ v, p95_shocks xs = some v ∧ v ∈ xs ∧
        v = (sortQ xs).getD
          (max 0 (min (pyRound (mkRat 95 100 * (((sortQ xs).length : ℚ) - 1)))
            (((sortQ xs).length : ℤ) - 1))).toNat 0) ∧
    (∀ rm cm s95 : Option ℚ, ∀ v : ℚ, s95 = some v →
      segment_row_score rm cm s95
        = (rm.getD 0 * 100 + min v 20 * mkRat 5 2)
          * (1 + max 0 (mkRat 9 10 - cm.getD 1) * mkRat 1 4)) ∧
    (∀ rm cm : Option ℚ, ∀ v : ℚ, 20 ≤ v →
      segment_row_score rm cm (some v) = segment_row_score rm cm (some 20)) := by
  refine ⟨p95_shocks_nearest_rank, ?_, ?_⟩
  · intro rm cm s95 v hv
    rw [segment_row_score, hv]
    rfl
  · intro rm cm v hv
    show (rm.getD 0 * 100 + min v 20 * mkRat 5 2)
        * (1 + max 0 (mkRat 9 10 - cm.getD 1) * mkRat 1 4)
      = (rm.getD 0 * 100 + min (20 : ℚ) 20 * mkRat 5 2)
        * (1 + max 0 (mkRat 9 10 - cm.getD 1) * mkRat 1 4)
    rw [min_eq_right hv, min_self]

/-- C5 witness: the nearest-rank clause on the concrete list `[4, 0, 9]` and
the cap clause at `s95 = 25`. -/
theorem C5_shock_p95_nearest_rank_capped_witness :
    (∃ v, p95_shocks [4, 0, 9] = some v ∧ v ∈ ([4, 0, 9] : List ℚ) ∧
      v = (sortQ [4, 0, 9]).getD
        (max 0 (min (pyRound (mkRat 95 100 * (((sortQ [4, 0, 9]).length : ℚ) - 1)))
          (((sortQ [4, 0, 9]).length : ℤ) - 1))).toNat 0) ∧
    segment_row_score (some 1) (some 1) (some 25)
      = segment_row_score (some 1) (some 1) (some 20) :=
  ⟨C5_shock_p95_nearest_rank_capped.1 [4, 0, 9] (by decide),
   C5_shock_p95_nearest_rank_capped.2.2 (some 1) (some 1) 25 (by decide)⟩

/-! ### server/db.py: rollup_hour -/

/-- The columns of `metric_aggregates` that the `rollup_hour` query touches. -/
structure MetricRow where
  grid_key : String
  bucket_start : String
  analyzable : ℤ
  road_roughness : Option ℚ
  confidence : Option ℚ
deriving DecidableEq

/-- One row of the `segment_hourly` table, keyed by
`(segment_key, hour_bucket)`. -/
structure RollupRow where
  segment_key : String
  hour_bucket : String
  n_samples : ℕ
  avg_roughness : ℚ
  p50_roughness : ℚ
  p95_roughness : ℚ
  avg_quality : ℚ
  score : ℚ
  score_confidence : ℝ
  anomaly_flag : ℕ
  updated_at : String

/-- The rows the `rollup_hour` query selects (`server/db.py` lines 119-126):
matching `grid_key`, equal hour prefixes (`substr(..,1,13)` is the first 13
characters), `analyzable = 1`, non-null roughness. -/
def qualifying (db : List MetricRow) (segment_key hour_bucket : String) : List MetricRow :=
  db.filter (fun r =>
    r.grid_key == segment_key
      && ((⟨r.bucket_start.data.take 13⟩ : String) == (⟨hour_bucket.data.take 13⟩ : String))
      && r.analyzable == 1 && r.road_roughness.isSome)

/-- Python `x or y` on an optional float: `y` when `x` is `None` or `0.0`
(`percentile(...) or avg` / `percentile(...) or max(...)` at lines 136-137). -/
def pyOrQ (o : Option ℚ) (d : ℚ) : ℚ :=
  match o with
  | none => d
  | some x => if x = 0 then d else x

/-- Python `max(l)` on a non-empty list (`max(rough)` at line 137). -/
def maxListQ : List ℚ → ℚ
  | [] => 0
  | x :: xs => xs.foldl max x

/-- `compute_confidence(n, avg_quality)` from `server/db.py` lines 112-116:
the logistic sample-count ramp times the clamped quality. -/
noncomputable def compute_confidence (n : ℕ) (avg_quality : ℚ) : ℝ :=
  let n_term : ℝ := 1 / (1 + Real.exp (-(1 / 4) * ((n : ℝ) - 8)))
  max 0 (min 1 (n_term * max 0 (min 1 (avg_quality : ℝ))))

/-- The row `rollup_hour` computes for `(segment_key, hour_bucket)`
(`server/db.py` lines 128-153), `none` when no row qualifies (lines
131-133). -/
noncomputable def rollup_row (db : List MetricRow) (segment_key hour_bucket now_iso : String) :
    Option RollupRow :=
  let rows := qualifying db segment_key hour_bucket
  let rough := (rows.map MetricRow.road_roughness).filterMap id
  let qual := (rows.map MetricRow.confidence).filterMap id
  let n := rough.length
  if n = 0 then none
  else
    let avg_rough := rough.sum / (n : ℚ)
    let r50 := pyOrQ (percentile rough (mkRat 1 2)) avg_rough
    let r95 := pyOrQ (percentile rough (mkRat 95 100)) (maxListQ rough)
    let avg_q := if qual = [] then mkRat 7 10 else qual.sum / (qual.length : ℚ)
    some ⟨segment_key, hour_bucket, n, avg_rough, r50, r95, avg_q,
      compute_score r50 r95, compute_confidence n avg_q, 0, now_iso⟩

/-- `INSERT OR REPLACE` into `segment_hourly` keyed by
`(segment_key, hour_bucket)`: the keyed row is replaced. -/
def upsert_hourly (t : List RollupRow) (r : RollupRow) : List RollupRow :=
  r :: t.filter (fun q => !(q.segment_key == r.segment_key && q.hour_bucket == r.hour_bucket))

/-- `rollup_hour(con, segment_key, hour_bucket, now_iso)` as a transformation
of the `segment_hourly` table: write nothing when no row qualifies,
otherwise upsert the computed row. -/
noncomputable def rollup_hour (db : List MetricRow) (segment_key hour_bucket now_iso : String)
    (t : List RollupRow) : List RollupRow :=
  match rollup_row db segment_key hour_bucket now_iso with
  | none => t
  | some r => upsert_hourly t r

/-- C9: with zero qualifying rows `rollup_hour` writes nothing and leaves the
rollup table unchanged; re-running `rollup_hour` over the same source data
and timestamp overwrites the keyed row with the identical result, so the
table after two runs equals the table after one — recomputation is
idempotent. -/
theorem C9_rollup_hour_empty_and_idempotent :
    (∀ (db : List MetricRow) (seg hr now : String) (t : List RollupRow),
      qualifying db seg hr = [] → rollup_hour db seg hr now t = t) ∧
    (∀ (db : List MetricRow) (seg hr now : String) (t : List RollupRow),
      rollup_hour db seg hr now (rollup_hour db seg hr now t)
        = rollup_hour db seg hr now t) := by
  constructor
  · intro db seg hr now t h
    rw [rollup_hour, rollup_row]
    rw [h]
    rfl
  · intro db seg hr now t
    rw [rollup_hour]
    rcases hrow : rollup_row db seg hr now with _ | r
    · rw [rollup_hour, hrow]
    · rw [rollup_hour, hrow]
      show upsert_hourly (upsert_hourly t r) r = upsert_hourly t r
      simp only [upsert_hourly]
      rw [List.filter_cons_of_neg]
      · rw [List.filter_filter]
        congr 1
        apply List.filter_congr
        intro q _
        rw [Bool.and_self]
      · rw [beq_self_eq_true, beq_self_eq_true]
        decide

/-- C9 witness: the empty clause at a concrete one-row database whose only
row belongs to a different segment, and the idempotence clause at the same
concrete arguments. -/
theorem C9_rollup_hour_empty_and_idempotent_witness :
    rollup_hour [⟨"seg:A", "2024-01-01T00:00:00", 1, some 1, none⟩]
      "seg:B" "2024-01-01T00:00:00" "now" [] = [] ∧
    rollup_hour [⟨"seg:A", "2024-01-01T00:00:00", 1, some 1, none⟩]
      "seg:A" "2024-01-01T00:00:00" "now"
      (rollup_hour [⟨"seg:A", "2024-01-01T00:00:00", 1, some 1, none⟩]
        "seg:A" "2024-01-01T00:00:00" "now" [])
      = rollup_hour [⟨"seg:A", "2024-01-01T00:00:00", 1, some 1, none⟩]
        "seg:A" "2024-01-01T00:00:00" "now" [] := by
  constructor
  · exact C9_rollup_hour_empty_and_idempotent.1 _ _ _ _ _ (by decide)
  · exact C9_rollup_hour_empty_and_idempotent.2 _ _ _ _ _
